import Mathlib

/-!
Shallow embedding of `simple_email_confirmation/models.py`.

The persistent store is a list of `EmailAddress` rows; `id` stands for the
database primary key, so `save(update_fields=...)` is modelled as rewriting
the row with the same `id`.  Timestamps are naturals (`timezone.now()` is an
explicit `now` argument), the optional setting
`SIMPLE_EMAIL_CONFIRMATION_PERIOD` is an explicit `period : Option Nat`, and
the randomness of `django.utils.crypto.get_random_string` is an explicit
oracle argument (a character stream, or the already-drawn fresh key).
Signals are returned as explicit event lists.
-/

namespace SimpleEmailConfirmation

/-- One `EmailAddress` row as persisted: primary key, user foreign key,
email, confirmation key, `set_at` and nullable `confirmed_at`. -/
structure EmailAddress where
  id : Nat
  user : Nat
  email : String
  key : String
  set_at : Nat
  confirmed_at : Option Nat
deriving DecidableEq, Repr

/-- The exception classes of the package (Django's `DoesNotExist` and the
duplicate-row `IntegrityError` included, as the spec's `NotFound` and
`DuplicateAddress`). -/
inductive Err where
  | NotFound
  | ConfirmationExpired
  | EmailNotConfirmed
  | EmailIsPrimary
  | DuplicateAddress
deriving DecidableEq, Repr

/-- The signals sent by `models.py`. -/
inductive Event where
  | EmailConfirmed (user : Nat) (email : String)
  | UnconfirmedEmailCreated (user : Nat) (email : String)
  | PrimaryEmailChanged (user : Nat) (old_email : String) (new_email : String)
deriving DecidableEq, Repr

/-- `EmailAddress.is_confirmed`: `self.confirmed_at is not None`. -/
def EmailAddress.is_confirmed (a : EmailAddress) : Bool :=
  a.confirmed_at.isSome

/-- `EmailAddress.key_expires_at`: `set_at + period` when
`SIMPLE_EMAIL_CONFIRMATION_PERIOD` is configured, else `None`. -/
def key_expires_at (period : Option Nat) (a : EmailAddress) : Option Nat :=
  match period with
  | some p => some (a.set_at + p)
  | none => none

/-- `EmailAddress.is_key_expired`:
`self.key_expires_at and timezone.now() >= self.key_expires_at`
(a datetime is always truthy, so this is: an expiry exists and now is past it). -/
def is_key_expired (period : Option Nat) (now : Nat) (a : EmailAddress) : Bool :=
  match key_expires_at period a with
  | some t => decide (t ≤ now)
  | none => false

/-- Default `length` of `django.utils.crypto.get_random_string`. -/
def DEFAULT_RANDOM_STRING_LENGTH : Nat := 12

/-- Model of `get_random_string(length)`: `length` characters drawn from the
random oracle `rand`. -/
def get_random_string (rand : Nat → Char) (length : Nat) : String :=
  String.mk ((List.range length).map rand)

/-- `EmailAddressManager.generate_key`: with no requested length, the Django
default; otherwise the requested length clamped by `min key_length 40` so the
key fits in the 40-character field. -/
def generate_key (rand : Nat → Char) (key_length : Option Nat) : String :=
  match key_length with
  | none => get_random_string rand DEFAULT_RANDOM_STRING_LENGTH
  | some kl => get_random_string rand (min kl 40)

/-- Manager-level view of `generate_key`: the method runs no query and writes
nothing, so the store passes through untouched. -/
def generate_key_op (store : List EmailAddress) (rand : Nat → Char)
    (key_length : Option Nat) : List EmailAddress × String :=
  (store, generate_key rand key_length)

/-- `address.save(...)`: overwrite the row with the same primary key. -/
def saveAddr (store : List EmailAddress) (a : EmailAddress) : List EmailAddress :=
  store.map (fun b => if b.id = a.id then a else b)

/-- `EmailAddressManager.confirm(key, user=None, save=True)`: look the row up
by key (optionally filtered to one user; `.get` raises `DoesNotExist` on no
match), raise `EmailConfirmationExpired` on an expired key, and only when the
row is not yet confirmed set `confirmed_at = now` and — when `save` — persist
it and send `email_confirmed`.  Returns the (possibly updated) store, the
returned address object, and the events sent by this call. -/
def confirm (period : Option Nat) (now : Nat) (store : List EmailAddress)
    (key : String) (user : Option Nat) (save : Bool) :
    Except Err (List EmailAddress × EmailAddress × List Event) :=
  let queryset : List EmailAddress := match user with
    | some u => store.filter (fun b => decide (b.user = u))
    | none => store
  match queryset.find? (fun b => decide (b.key = key)) with
  | none => .error .NotFound
  | some address =>
    if is_key_expired period now address then
      .error .ConfirmationExpired
    else if address.is_confirmed then
      .ok (store, address, [])
    else
      let address1 := { address with confirmed_at := some now }
      if save then
        .ok (saveAddr store address1, address1,
             [.EmailConfirmed address.user address.email])
      else
        .ok (store, address1, [])

/-- `EmailAddress.reset_confirmation`: overwrite `key` with a freshly
generated one (the random draw `newKey` is an explicit input), reset
`set_at = now`, clear `confirmed_at`, save, and return the new key. -/
def reset_confirmation (now : Nat) (newKey : String)
    (store : List EmailAddress) (a : EmailAddress) :
    List EmailAddress × String :=
  let a1 : EmailAddress :=
    { a with key := newKey, set_at := now, confirmed_at := none }
  (saveAddr store a1, newKey)

/-- The related manager `user.email_address_set`: the rows of one user. -/
def user_addresses (store : List EmailAddress) (uid : Nat) : List EmailAddress :=
  store.filter (fun a => decide (a.user = uid))

/-- `EmailAddressManager.create_unconfirmed`: insert a row with a generated
key, `set_at` at its field default `now`, null `confirmed_at`, and send
`unconfirmed_email_created`; the database unique constraint on
`(user, email)` makes a duplicate insert raise. -/
def create_unconfirmed (now : Nat) (newId : Nat) (key : String)
    (store : List EmailAddress) (uid : Nat) (email : String) :
    Except Err (List EmailAddress × EmailAddress × List Event) :=
  if (user_addresses store uid).any (fun a => decide (a.email = email)) then
    .error .DuplicateAddress
  else
    let a : EmailAddress := ⟨newId, uid, email, key, now, none⟩
    .ok (store ++ [a], a, [.UnconfirmedEmailCreated uid email])

/-- `SimpleEmailConfirmationUserMixin.add_email_if_not_exists`: look the
user's row for `email` up; when absent, delegate to
`add_unconfirmed_email` (that is, `create_unconfirmed`) and return the new
key; when present and unconfirmed, `reset_confirmation` and return the new
key; when present and confirmed, do nothing and return `none`. -/
def add_email_if_not_exists (now : Nat) (newId : Nat) (freshKey : String)
    (store : List EmailAddress) (uid : Nat) (email : String) :
    Except Err (List EmailAddress × Option String × List Event) :=
  match (user_addresses store uid).find? (fun a => decide (a.email = email)) with
  | none =>
    match create_unconfirmed now newId freshKey store uid email with
    | .error e => .error e
    | .ok (store1, a, events) => .ok (store1, some a.key, events)
  | some address =>
    if address.is_confirmed then
      .ok (store, none, [])
    else
      let r := reset_confirmation now freshKey store address
      .ok (r.1, some r.2, [])

/-- The user object the mixin is attached to: its primary key and its
`primary_email_field_name` field. -/
structure User where
  id : Nat
  email : String
deriving DecidableEq, Repr

/-- `SimpleEmailConfirmationUserMixin.get_primary_email`. -/
def get_primary_email (u : User) : String :=
  u.email

/-- `SimpleEmailConfirmationUserMixin.get_confirmed_emails`: the emails of
the user's rows whose `confirmed_at` is not null. -/
def get_confirmed_emails (store : List EmailAddress) (uid : Nat) : List String :=
  ((user_addresses store uid).filter (fun a => a.confirmed_at.isSome)).map
    (fun a => a.email)

/-- `SimpleEmailConfirmationUserMixin.set_primary_email(email,
require_confirmed=True)`: return at once when `email` equals the current
primary; raise `EmailNotConfirmed` when `email` is not among the confirmed
emails and confirmation is required; otherwise store the new primary and
send `primary_email_changed`. -/
def set_primary_email (store : List EmailAddress) (u : User) (email : String)
    (require_confirmed : Bool) : Except Err (User × List Event) :=
  let old_email := get_primary_email u
  if email = old_email then
    .ok (u, [])
  else if email ∉ get_confirmed_emails store u.id ∧ require_confirmed = true then
    .error .EmailNotConfirmed
  else
    .ok ({ u with email := email }, [.PrimaryEmailChanged u.id old_email email])

/-- The mixin property `is_confirmed`:
`self.get_primary_email() in self.confirmed_emails`. -/
def user_is_confirmed (store : List EmailAddress) (u : User) : Bool :=
  decide (get_primary_email u ∈ get_confirmed_emails store u.id)

/-- The mixin property `confirmed_at`:
`self.email_address_set.get(email=self.get_primary_email()).confirmed_at`;
`.get` raises `DoesNotExist` when the user has no row for the primary email. -/
def user_confirmed_at (store : List EmailAddress) (u : User) :
    Except Err (Option Nat) :=
  match (user_addresses store u.id).find?
      (fun a => decide (a.email = get_primary_email u)) with
  | none => .error .NotFound
  | some a => .ok a.confirmed_at

/-- `SimpleEmailConfirmationUserMixin.remove_email`: raise `EmailIsPrimary`
for the current primary email; otherwise `.get` the row (raising
`DoesNotExist` when absent) and delete it.  No signal is sent. -/
def remove_email (store : List EmailAddress) (u : User) (email : String) :
    Except Err (List EmailAddress × List Event) :=
  if email = get_primary_email u then
    .error .EmailIsPrimary
  else
    match (user_addresses store u.id).find?
        (fun a => decide (a.email = email)) with
    | none => .error .NotFound
    | some a => .ok (store.filter (fun b => decide (b.id ≠ a.id)), [])

/-- The database invariants of the schema: primary keys are unique, `key`
is `unique=True`, and `(user, email)` is `unique_together`. -/
def WF (store : List EmailAddress) : Prop :=
  store.Pairwise (fun x y => x.id ≠ y.id) ∧
  store.Pairwise (fun x y => x.key ≠ y.key) ∧
  store.Pairwise (fun x y => x.user ≠ y.user ∨ x.email ≠ y.email)

instance (store : List EmailAddress) : Decidable (WF store) := by
  unfold WF; infer_instance

/-- How a `.get(email=email)` on one user's rows can turn out: a row of that
user with that email is stored, or no such row is stored at all. -/
def AddressLookup (store : List EmailAddress) (uid : Nat) (email : String) :
    Option EmailAddress → Prop
  | some a => a ∈ store ∧ a.user = uid ∧ a.email = email
  | none => ∀ b ∈ store, ¬(b.user = uid ∧ b.email = email)

instance (store : List EmailAddress) (uid : Nat) (email : String)
    (oa : Option EmailAddress) : Decidable (AddressLookup store uid email oa) := by
  unfold AddressLookup
  cases oa <;> infer_instance

/-! ## Lemmas about lookups in a well-formed store -/

/-- When keys are unique, the lookup by a stored row's key finds that row. -/
theorem find?_key_of_mem (store : List EmailAddress) (a : EmailAddress)
    (hkeys : store.Pairwise (fun x y => x.key ≠ y.key)) (ha : a ∈ store) :
    store.find? (fun b => decide (b.key = a.key)) = some a := by
  induction store with
  | nil => cases ha
  | cons b rest ih =>
    rcases List.mem_cons.mp ha with rfl | hmem
    · exact List.find?_cons_of_pos _ (by simp)
    · have hb : b.key ≠ a.key := (List.pairwise_cons.mp hkeys).1 a hmem
      rw [List.find?_cons_of_neg _ (by simpa using hb)]
      exact ih (List.pairwise_cons.mp hkeys).2 hmem

/-- Saving a row that keeps the old row's key: the lookup by that key now
finds the saved row. -/
theorem find?_saveAddr_same_key (store : List EmailAddress) (a a1 : EmailAddress)
    (hids : store.Pairwise (fun x y => x.id ≠ y.id))
    (hkeys : store.Pairwise (fun x y => x.key ≠ y.key))
    (ha : a ∈ store) (hid : a1.id = a.id) (hk : a1.key = a.key) :
    (saveAddr store a1).find? (fun b => decide (b.key = a.key)) = some a1 := by
  induction store with
  | nil => cases ha
  | cons b rest ih =>
    rcases List.mem_cons.mp ha with rfl | hmem
    · rw [saveAddr, List.map_cons, if_pos hid.symm]
      exact List.find?_cons_of_pos _ (by simp [hk])
    · obtain ⟨hbfst, hids'⟩ := List.pairwise_cons.mp hids
      obtain ⟨hbkey, hkeys'⟩ := List.pairwise_cons.mp hkeys
      have hbid : b.id ≠ a1.id := hid ▸ hbfst a hmem
      rw [saveAddr, List.map_cons, if_neg hbid]
      rw [List.find?_cons_of_neg _ (by simpa using hbkey a hmem)]
      exact ih hids' hkeys' hmem

/-- Saving a row under a changed key: the lookup by the old key misses. -/
theorem find?_saveAddr_old_key (store : List EmailAddress) (a a1 : EmailAddress)
    (hkeys : store.Pairwise (fun x y => x.key ≠ y.key))
    (ha : a ∈ store) (hid : a1.id = a.id) (hk : a1.key ≠ a.key) :
    (saveAddr store a1).find? (fun b => decide (b.key = a.key)) = none := by
  rw [List.find?_eq_none]
  intro x hx
  simp only [saveAddr, List.mem_map] at hx
  obtain ⟨c, hc, rfl⟩ := hx
  by_cases hcid : c.id = a1.id
  · rw [if_pos hcid]
    simpa using hk
  · rw [if_neg hcid]
    have hca : c ≠ a := fun h => hcid (h ▸ hid.symm)
    have hck : c.key ≠ a.key :=
      hkeys.forall (fun _ _ h => h.symm) hc ha hca
    simpa using hck

/-- When `(user, email)` pairs are unique, the user-scoped lookup by a stored
row's email finds that row. -/
theorem find?_user_email_of_mem (store : List EmailAddress) (a : EmailAddress)
    (uid : Nat) (email : String)
    (hue : store.Pairwise (fun x y => x.user ≠ y.user ∨ x.email ≠ y.email))
    (ha : a ∈ store) (hu : a.user = uid) (he : a.email = email) :
    (user_addresses store uid).find? (fun b => decide (b.email = email)) = some a := by
  subst hu he
  induction store with
  | nil => cases ha
  | cons b rest ih =>
    rcases List.mem_cons.mp ha with rfl | hmem
    · rw [user_addresses, List.filter_cons_of_pos (by simp)]
      exact List.find?_cons_of_pos _ (by simp)
    · obtain ⟨hbfst, hue'⟩ := List.pairwise_cons.mp hue
      have hrest := ih hue' hmem
      by_cases hbu : b.user = a.user
      · have hbe : b.email ≠ a.email := by
          rcases hbfst a hmem with h | h
          · exact absurd hbu h
          · exact h
        rw [user_addresses, List.filter_cons_of_pos (by simp [hbu])]
        rw [List.find?_cons_of_neg _ (by simpa using hbe)]
        exact hrest
      · rw [user_addresses, List.filter_cons_of_neg (by simpa using hbu)]
        exact hrest

/-- When the user has no row for the email, the user-scoped lookup misses. -/
theorem find?_user_email_none (store : List EmailAddress) (uid : Nat)
    (email : String)
    (habs : ∀ b ∈ store, ¬(b.user = uid ∧ b.email = email)) :
    (user_addresses store uid).find? (fun b => decide (b.email = email)) = none := by
  rw [List.find?_eq_none]
  intro x hx
  rw [user_addresses, List.mem_filter] at hx
  obtain ⟨hxs, hxu⟩ := hx
  simp only [decide_eq_true_eq] at hxu ⊢
  exact fun hxe => habs x hxs ⟨hxu, hxe⟩

/-- When the user has no row for the email, the duplicate test of
`create_unconfirmed` is negative. -/
theorem any_user_email_false (store : List EmailAddress) (uid : Nat)
    (email : String)
    (habs : ∀ b ∈ store, ¬(b.user = uid ∧ b.email = email)) :
    (user_addresses store uid).any (fun a => decide (a.email = email)) = false := by
  rw [List.any_eq_false]
  intro x hx
  rw [user_addresses, List.mem_filter] at hx
  obtain ⟨hxs, hxu⟩ := hx
  simp only [decide_eq_true_eq] at hxu ⊢
  exact fun hxe => habs x hxs ⟨hxu, hxe⟩

/-! ## The claims -/

/-- C7: `generate_key` returns a token whose length is the requested length
clamped to at most 40 (the maximum storable key length); with no length
requested it uses the generator's standard default length; and the operation
passes the store through with no side effect. -/
theorem generate_key_length_clamped (rand : Nat → Char) (kl : Nat)
    (store : List EmailAddress) :
    (generate_key rand (some kl)).length = min kl 40 ∧
    (generate_key rand none).length = DEFAULT_RANDOM_STRING_LENGTH ∧
    generate_key_op store rand (some kl) = (store, generate_key rand (some kl)) ∧
    generate_key_op store rand none = (store, generate_key rand none) := by
  refine ⟨?_, ?_, rfl, rfl⟩ <;>
    simp [generate_key, get_random_string, String.length]

/-- C8: `key_expires_at` is `set_at + period` when a confirmation period is
configured and none otherwise, and `is_key_expired` holds iff some expiry
exists and now has reached it; with the default configuration (no period) no
key ever expires. -/
theorem key_expiration_policy (period : Option Nat) (p now : Nat)
    (a : EmailAddress) :
    key_expires_at (some p) a = some (a.set_at + p) ∧
    key_expires_at none a = none ∧
    (is_key_expired period now a = true ↔
      ∃ t, key_expires_at period a = some t ∧ t ≤ now) ∧
    is_key_expired none now a = false := by
  refine ⟨rfl, rfl, ?_, rfl⟩
  cases period <;> simp [is_key_expired, key_expires_at]

/-- C9: `set_primary_email` checks equality before confirmation, so setting
the current primary again is a successful no-op (no save, no event) for every
store and every `require_confirmed` flag, even when that email is
unconfirmed; `EmailNotConfirmed` is never raised in this case. -/
theorem set_primary_email_self_noop (store : List EmailAddress) (u : User)
    (require_confirmed : Bool) :
    set_primary_email store u (get_primary_email u) require_confirmed =
      .ok (u, []) := by
  simp [set_primary_email, get_primary_email]

/-- C10: when the user's primary email has no `EmailAddress` row, the derived
`is_confirmed` returns false without error, while the derived `confirmed_at`
raises `NotFound` (`DoesNotExist`): the two accessors disagree on a missing
primary row. -/
theorem missing_primary_row_accessors_disagree (store : List EmailAddress)
    (u : User)
    (habs : ∀ b ∈ store, ¬(b.user = u.id ∧ b.email = get_primary_email u)) :
    user_is_confirmed store u = false ∧
    user_confirmed_at store u = .error .NotFound := by
  constructor
  · simp only [user_is_confirmed, decide_eq_false_iff_not]
    intro hmem
    simp only [get_confirmed_emails, user_addresses, List.mem_map,
      List.mem_filter, decide_eq_true_eq] at hmem
    obtain ⟨b, ⟨⟨hbs, hbu⟩, _⟩, hbe⟩ := hmem
    exact habs b hbs ⟨hbu, hbe⟩
  · rw [user_confirmed_at, find?_user_email_none store u.id _ habs]

/-- C10 witness: a store holding one row of another user, a user whose
primary email has no row. -/
theorem missing_primary_row_accessors_disagree_witness :
    (∀ b ∈ [(⟨7, 3, "x@x.com", "kkk", 0, some 1⟩ : EmailAddress)],
      ¬(b.user = 5 ∧ b.email = get_primary_email ⟨5, "a@x.com"⟩)) ∧
    user_is_confirmed [⟨7, 3, "x@x.com", "kkk", 0, some 1⟩] ⟨5, "a@x.com"⟩ = false ∧
    user_confirmed_at [⟨7, 3, "x@x.com", "kkk", 0, some 1⟩] ⟨5, "a@x.com"⟩ =
      .error .NotFound :=
  ⟨by decide, missing_primary_row_accessors_disagree _ _ (by decide)⟩

/-- C2: confirming an expired key raises `ConfirmationExpired` and performs
no write (the operation returns no updated store), whether or not the row is
already confirmed and whether or not `save` was requested. -/
theorem confirm_expired_fails (period : Option Nat) (now : Nat)
    (store : List EmailAddress) (a : EmailAddress) (save : Bool)
    (hkeys : store.Pairwise (fun x y => x.key ≠ y.key))
    (ha : a ∈ store)
    (hexp : is_key_expired period now a = true) :
    confirm period now store a.key none save = .error .ConfirmationExpired := by
  simp only [confirm]
  rw [find?_key_of_mem store a hkeys ha]
  simp [hexp]

/-- C2 witness: a five-tick period, a key set at time 0, confirmation tried
at time 10 on an already-confirmed row. -/
theorem confirm_expired_fails_witness :
    ([(⟨0, 0, "a@x.com", "k", 0, some 2⟩ : EmailAddress)].Pairwise
      (fun x y => x.key ≠ y.key)) ∧
    ((⟨0, 0, "a@x.com", "k", 0, some 2⟩ : EmailAddress) ∈
      [(⟨0, 0, "a@x.com", "k", 0, some 2⟩ : EmailAddress)]) ∧
    is_key_expired (some 5) 10 ⟨0, 0, "a@x.com", "k", 0, some 2⟩ = true ∧
    confirm (some 5) 10 [⟨0, 0, "a@x.com", "k", 0, some 2⟩] "k" none true =
      .error .ConfirmationExpired :=
  ⟨by decide, by decide, by decide,
    confirm_expired_fails (some 5) 10 [⟨0, 0, "a@x.com", "k", 0, some 2⟩]
      ⟨0, 0, "a@x.com", "k", 0, some 2⟩ true (by decide) (by decide) (by decide)⟩

/-- C1: on a stored, unconfirmed row whose key is unexpired, the first
`confirm(key)` sets `confirmed_at = now` and sends exactly one
`EmailConfirmed` event, and a later `confirm` of the same (still unexpired)
key returns the row unchanged, leaves the store unchanged and sends no
event — so two confirms of the same unexpired key send `EmailConfirmed`
exactly once in total. -/
theorem confirm_idempotent (period : Option Nat) (now now2 : Nat)
    (store : List EmailAddress) (a : EmailAddress)
    (hids : store.Pairwise (fun x y => x.id ≠ y.id))
    (hkeys : store.Pairwise (fun x y => x.key ≠ y.key))
    (ha : a ∈ store)
    (hunconf : a.confirmed_at = none)
    (hexp : is_key_expired period now a = false)
    (hexp2 : is_key_expired period now2 a = false) :
    confirm period now store a.key none true =
      .ok (saveAddr store { a with confirmed_at := some now },
           { a with confirmed_at := some now },
           [.EmailConfirmed a.user a.email]) ∧
    confirm period now2 (saveAddr store { a with confirmed_at := some now })
        a.key none true =
      .ok (saveAddr store { a with confirmed_at := some now },
           { a with confirmed_at := some now }, []) := by
  constructor
  · simp only [confirm]
    rw [find?_key_of_mem store a hkeys ha]
    simp [hexp, EmailAddress.is_confirmed, hunconf]
  · simp only [confirm]
    rw [find?_saveAddr_same_key store a { a with confirmed_at := some now }
      hids hkeys ha rfl rfl]
    have hsame : is_key_expired period now2 { a with confirmed_at := some now } =
        is_key_expired period now2 a := rfl
    simp [hsame, hexp2, EmailAddress.is_confirmed]

/-- C1 witness: one unconfirmed row, no configured period, confirm at time 0
and again at time 1. -/
theorem confirm_idempotent_witness :
    ([(⟨0, 0, "a@x.com", "k", 0, none⟩ : EmailAddress)].Pairwise
      (fun x y => x.id ≠ y.id)) ∧
    ([(⟨0, 0, "a@x.com", "k", 0, none⟩ : EmailAddress)].Pairwise
      (fun x y => x.key ≠ y.key)) ∧
    ((⟨0, 0, "a@x.com", "k", 0, none⟩ : EmailAddress) ∈
      [(⟨0, 0, "a@x.com", "k", 0, none⟩ : EmailAddress)]) ∧
    (confirm none 0 [⟨0, 0, "a@x.com", "k", 0, none⟩] "k" none true =
      .ok (saveAddr [⟨0, 0, "a@x.com", "k", 0, none⟩] ⟨0, 0, "a@x.com", "k", 0, some 0⟩,
           ⟨0, 0, "a@x.com", "k", 0, some 0⟩,
           [.EmailConfirmed 0 "a@x.com"]) ∧
    confirm none 1 (saveAddr [⟨0, 0, "a@x.com", "k", 0, none⟩]
        ⟨0, 0, "a@x.com", "k", 0, some 0⟩) "k" none true =
      .ok (saveAddr [⟨0, 0, "a@x.com", "k", 0, none⟩] ⟨0, 0, "a@x.com", "k", 0, some 0⟩,
           ⟨0, 0, "a@x.com", "k", 0, some 0⟩, [])) :=
  ⟨by decide, by decide, by decide,
    confirm_idempotent none 0 1 [⟨0, 0, "a@x.com", "k", 0, none⟩]
      ⟨0, 0, "a@x.com", "k", 0, none⟩ (by decide) (by decide) (by decide)
      (by decide) (by decide) (by decide)⟩

/-- C3: `reset_confirmation` returns the freshly generated key, the row is
afterwards stored with that key, `set_at = now` and a cleared `confirmed_at`,
and the previous key matches no stored row any more: a later `confirm` with
the old key raises `NotFound`. -/
theorem reset_confirmation_invalidates_old_key (period : Option Nat)
    (now now2 : Nat) (newKey : String) (store : List EmailAddress)
    (a : EmailAddress) (save : Bool)
    (hkeys : store.Pairwise (fun x y => x.key ≠ y.key))
    (ha : a ∈ store)
    (hfresh : ∀ b ∈ store, b.key ≠ newKey) :
    (reset_confirmation now newKey store a).2 = newKey ∧
    { a with key := newKey, set_at := now, confirmed_at := none } ∈
      (reset_confirmation now newKey store a).1 ∧
    confirm period now2 (reset_confirmation now newKey store a).1 a.key none save
      = .error .NotFound := by
  refine ⟨rfl, ?_, ?_⟩
  · have hmem := List.mem_map_of_mem
      (fun b : EmailAddress =>
        if b.id = a.id then { a with key := newKey, set_at := now, confirmed_at := none } else b)
      ha
    simpa [reset_confirmation, saveAddr] using hmem
  · have hk : ({ a with key := newKey, set_at := now, confirmed_at := none } : EmailAddress).key ≠ a.key :=
      fun h => hfresh a ha h.symm
    simp only [confirm, reset_confirmation]
    rw [find?_saveAddr_old_key store a
      { a with key := newKey, set_at := now, confirmed_at := none } hkeys ha rfl hk]

/-- C3 witness: reset a confirmed row at time 5 with fresh key "k2", then try
the old key "k" at time 6. -/
theorem reset_confirmation_invalidates_old_key_witness :
    ([(⟨0, 0, "a@x.com", "k", 0, some 3⟩ : EmailAddress)].Pairwise
      (fun x y => x.key ≠ y.key)) ∧
    ((⟨0, 0, "a@x.com", "k", 0, some 3⟩ : EmailAddress) ∈
      [(⟨0, 0, "a@x.com", "k", 0, some 3⟩ : EmailAddress)]) ∧
    (∀ b ∈ [(⟨0, 0, "a@x.com", "k", 0, some 3⟩ : EmailAddress)], b.key ≠ "k2") ∧
    ((reset_confirmation 5 "k2" [⟨0, 0, "a@x.com", "k", 0, some 3⟩]
        ⟨0, 0, "a@x.com", "k", 0, some 3⟩).2 = "k2" ∧
    (⟨0, 0, "a@x.com", "k2", 5, none⟩ : EmailAddress) ∈
      (reset_confirmation 5 "k2" [⟨0, 0, "a@x.com", "k", 0, some 3⟩]
        ⟨0, 0, "a@x.com", "k", 0, some 3⟩).1 ∧
    confirm none 6 (reset_confirmation 5 "k2" [⟨0, 0, "a@x.com", "k", 0, some 3⟩]
        ⟨0, 0, "a@x.com", "k", 0, some 3⟩).1 "k" none true = .error .NotFound) :=
  ⟨by decide, by decide, by decide,
    reset_confirmation_invalidates_old_key none 5 6 "k2"
      [⟨0, 0, "a@x.com", "k", 0, some 3⟩] ⟨0, 0, "a@x.com", "k", 0, some 3⟩
      true (by decide) (by decide) (by decide)⟩

/-- C5: for an email different from the current primary,
`set_primary_email` with `require_confirmed = true` raises
`EmailNotConfirmed` when the email is not among the user's confirmed emails
(returning no updated user and no event, so the primary attribute is
untouched); when the email is confirmed, or the caller opts out with
`require_confirmed = false`, it stores the new primary and sends exactly one
`PrimaryEmailChanged(old, new)` event. -/
theorem set_primary_email_confirmed_guard (store : List EmailAddress)
    (u : User) (email : String)
    (hne : email ≠ get_primary_email u) :
    (email ∉ get_confirmed_emails store u.id →
      set_primary_email store u email true = .error .EmailNotConfirmed) ∧
    (email ∈ get_confirmed_emails store u.id →
      set_primary_email store u email true =
        .ok ({ u with email := email },
             [.PrimaryEmailChanged u.id (get_primary_email u) email])) ∧
    set_primary_email store u email false =
      .ok ({ u with email := email },
           [.PrimaryEmailChanged u.id (get_primary_email u) email]) := by
  have hne' : email ≠ u.email := hne
  refine ⟨fun hnc => ?_, fun hc => ?_, ?_⟩ <;>
    simp [set_primary_email, get_primary_email, hne', *]

/-- C5 witness: a user whose primary is "a@x.com", one confirmed row for
"c@x.com" and none for "b@x.com". -/
theorem set_primary_email_confirmed_guard_witness :
    ("b@x.com" ≠ get_primary_email ⟨1, "a@x.com"⟩) ∧
    (("b@x.com" ∉ get_confirmed_emails
        [(⟨0, 1, "c@x.com", "k", 0, some 2⟩ : EmailAddress)] 1 →
      set_primary_email [⟨0, 1, "c@x.com", "k", 0, some 2⟩] ⟨1, "a@x.com"⟩
        "b@x.com" true = .error .EmailNotConfirmed) ∧
    ("b@x.com" ∈ get_confirmed_emails
        [(⟨0, 1, "c@x.com", "k", 0, some 2⟩ : EmailAddress)] 1 →
      set_primary_email [⟨0, 1, "c@x.com", "k", 0, some 2⟩] ⟨1, "a@x.com"⟩
        "b@x.com" true =
        .ok (⟨1, "b@x.com"⟩,
             [.PrimaryEmailChanged 1 (get_primary_email ⟨1, "a@x.com"⟩) "b@x.com"])) ∧
    set_primary_email [⟨0, 1, "c@x.com", "k", 0, some 2⟩] ⟨1, "a@x.com"⟩
        "b@x.com" false =
      .ok (⟨1, "b@x.com"⟩,
           [.PrimaryEmailChanged 1 (get_primary_email ⟨1, "a@x.com"⟩) "b@x.com"])) :=
  ⟨by decide,
    set_primary_email_confirmed_guard [⟨0, 1, "c@x.com", "k", 0, some 2⟩]
      ⟨1, "a@x.com"⟩ "b@x.com" (by decide)⟩

/-- C6: `remove_email` raises `EmailIsPrimary` on the current primary email
(returning no updated store, so any row stays present); otherwise it raises
`NotFound` when the user has no row for the email; otherwise it deletes
exactly the row with that row's primary key and sends no event. -/
theorem remove_email_cases (store : List EmailAddress) (u : User)
    (email : String)
    (hue : store.Pairwise (fun x y => x.user ≠ y.user ∨ x.email ≠ y.email))
    (oa : Option EmailAddress)
    (hcase : AddressLookup store u.id email oa) :
    (remove_email store u email =
      if email = get_primary_email u then .error .EmailIsPrimary
      else match oa with
        | none => .error .NotFound
        | some a => .ok (store.filter (fun b => decide (b.id ≠ a.id)), [])) ∧
    (match oa with
      | none => True
      | some a => a ∉ store.filter (fun b => decide (b.id ≠ a.id))) := by
  constructor
  · by_cases hp : email = get_primary_email u
    · simp [remove_email, hp]
    · rw [if_neg hp]
      cases oa with
      | none =>
        rw [remove_email, if_neg hp, find?_user_email_none store u.id email hcase]
      | some a =>
        obtain ⟨ha, hauser, haemail⟩ := hcase
        rw [remove_email, if_neg hp,
          find?_user_email_of_mem store a u.id email hue ha hauser haemail]
  · cases oa with
    | none => trivial
    | some a => simp

/-- C6 witness: removing a stored non-primary row. -/
theorem remove_email_cases_witness :
    ([(⟨4, 1, "b@x.com", "k", 0, none⟩ : EmailAddress)].Pairwise
      (fun x y => x.user ≠ y.user ∨ x.email ≠ y.email)) ∧
    AddressLookup [(⟨4, 1, "b@x.com", "k", 0, none⟩ : EmailAddress)] 1 "b@x.com"
      (some ⟨4, 1, "b@x.com", "k", 0, none⟩) ∧
    ((remove_email [⟨4, 1, "b@x.com", "k", 0, none⟩] ⟨1, "a@x.com"⟩ "b@x.com" =
      if "b@x.com" = get_primary_email ⟨1, "a@x.com"⟩ then .error .EmailIsPrimary
      else .ok ([(⟨4, 1, "b@x.com", "k", 0, none⟩ : EmailAddress)].filter
        (fun b => decide (b.id ≠ 4)), [])) ∧
    ((⟨4, 1, "b@x.com", "k", 0, none⟩ : EmailAddress) ∉
      [(⟨4, 1, "b@x.com", "k", 0, none⟩ : EmailAddress)].filter
        (fun b => decide (b.id ≠ 4)))) :=
  ⟨by decide, by decide,
    remove_email_cases [⟨4, 1, "b@x.com", "k", 0, none⟩] ⟨1, "a@x.com"⟩
      "b@x.com" (by decide) (some ⟨4, 1, "b@x.com", "k", 0, none⟩) (by decide)⟩

/-- C4: `add_email_if_not_exists` behaves by exactly three cases.  With a
stored confirmed row for the email it changes nothing and returns none; with
a stored unconfirmed row it always resets the confirmation (new key, new
`set_at`, no expiry check anywhere) and returns the new key, which differs
from the previous one; with no stored row it inserts an unconfirmed row and
returns its new key. -/
theorem add_email_if_not_exists_cases (now newId : Nat) (freshKey : String)
    (store : List EmailAddress) (uid : Nat) (email : String)
    (hue : store.Pairwise (fun x y => x.user ≠ y.user ∨ x.email ≠ y.email))
    (hfresh : ∀ b ∈ store, b.key ≠ freshKey)
    (oa : Option EmailAddress)
    (hcase : AddressLookup store uid email oa) :
    (add_email_if_not_exists now newId freshKey store uid email =
      match oa with
      | none => .ok (store ++ [⟨newId, uid, email, freshKey, now, none⟩],
                     some freshKey, [.UnconfirmedEmailCreated uid email])
      | some a =>
        if a.is_confirmed then .ok (store, none, [])
        else .ok (saveAddr store
                    { a with key := freshKey, set_at := now, confirmed_at := none },
                  some freshKey, [])) ∧
    (match oa with
      | none => True
      | some a => freshKey ≠ a.key) := by
  cases oa with
  | none =>
    refine ⟨?_, trivial⟩
    rw [add_email_if_not_exists, find?_user_email_none store uid email hcase,
      create_unconfirmed, if_neg (by simp [any_user_email_false store uid email hcase])]
  | some a =>
    obtain ⟨ha, hauser, haemail⟩ := hcase
    refine ⟨?_, fun h => hfresh a ha h.symm⟩
    rw [add_email_if_not_exists,
      find?_user_email_of_mem store a uid email hue ha hauser haemail]
    by_cases hconf : a.is_confirmed
    · simp [hconf]
    · simp [hconf, reset_confirmation]

/-- C4 witness: the unconfirmed-exists case, reset at time 9 with fresh key
"k2" on a row whose old key is "k". -/
theorem add_email_if_not_exists_cases_witness :
    ([(⟨2, 1, "b@x.com", "k", 0, none⟩ : EmailAddress)].Pairwise
      (fun x y => x.user ≠ y.user ∨ x.email ≠ y.email)) ∧
    (∀ b ∈ [(⟨2, 1, "b@x.com", "k", 0, none⟩ : EmailAddress)], b.key ≠ "k2") ∧
    AddressLookup [(⟨2, 1, "b@x.com", "k", 0, none⟩ : EmailAddress)] 1 "b@x.com"
      (some ⟨2, 1, "b@x.com", "k", 0, none⟩) ∧
    ((add_email_if_not_exists 9 3 "k2" [⟨2, 1, "b@x.com", "k", 0, none⟩] 1 "b@x.com" =
      .ok (saveAddr [⟨2, 1, "b@x.com", "k", 0, none⟩] ⟨2, 1, "b@x.com", "k2", 9, none⟩,
           some "k2", [])) ∧
    ("k2" ≠ "k")) :=
  ⟨by decide, by decide, by decide,
    add_email_if_not_exists_cases 9 3 "k2" [⟨2, 1, "b@x.com", "k", 0, none⟩]
      1 "b@x.com" (by decide) (by decide)
      (some ⟨2, 1, "b@x.com", "k", 0, none⟩) (by decide)⟩

end SimpleEmailConfirmation
